import Mathlib

/-!
Verification of the dynamics-processing stage (compressor + limiter) of the
camilladsp repository, as a shallow embedding: the floating-point sample type
`PrcFmt` is modelled by the real numbers, Rust `Vec`s by lists, and the stateful
methods by functions returning the updated component.
-/

set_option maxHeartbeats 1000000

noncomputable section

namespace CamillaDSP

/-- The sample format (Rust `PrcFmt` floating point), modelled as a real number. -/
abbrev PrcFmt := ℝ

/-- An audio chunk: one waveform (list of samples) per channel.  The container
type itself lives outside the verified sources; only its `waveforms` buffers are
used here. -/
structure AudioChunk where
  waveforms : List (List PrcFmt)

/-- Modelled from the spec: the compressor configuration schema (`config.rs` is
not among the sources).  Per the spec's configuration table, the channel-index
lists resolve to the configured indices (empty when unspecified) and
`makeup_gain` resolves with default 0; the remaining optional fields keep their
`Option` form, with defaults `soft_clip = false`, `clip_lookahead = 0`,
`clip_use_monitor = false`, `monitor_use_power = false` applied at use sites. -/
structure CompressorParameters where
  channels : Nat
  monitor_channels : List Nat
  process_channels : List Nat
  attack : PrcFmt
  release : PrcFmt
  threshold : PrcFmt
  factor : PrcFmt
  makeup_gain : PrcFmt
  clip_limit : Option PrcFmt
  soft_clip : Option Bool
  clip_lookahead : Option Nat
  clip_use_monitor : Option Bool
  monitor_use_power : Option Bool

/-- Modelled from the spec: the limiter configuration schema (`config.rs` is not
among the sources); defaults `soft_clip = false`, `lookahead = 0`. -/
structure LimiterParameters where
  clip_limit : PrcFmt
  soft_clip : Option Bool
  lookahead : Option Nat

/-- Modelled from the spec: the bounded FIFO window (`circular_queue` crate,
outside the sources) holding the last `capacity` pushed values, oldest first. -/
structure CircularQueue where
  capacity : Nat
  data : List PrcFmt

/-- A fresh empty queue of the given capacity. -/
def CircularQueue.with_capacity (n : Nat) : CircularQueue := ⟨n, []⟩

/-- Modelled from the spec: pushing appends the value, discarding the oldest
element when the queue is at capacity. -/
def CircularQueue.push (q : CircularQueue) (x : PrcFmt) : CircularQueue :=
  if q.capacity = 0 then q
  else if q.data.length < q.capacity then ⟨q.capacity, q.data ++ [x]⟩
  else ⟨q.capacity, q.data.tail ++ [x]⟩

/-- Modelled from the spec: the delay-line primitive (`basicfilters::Delay`, not
among the sources).  Its internal carry-over buffer holds the delayed samples;
processing a waveform emits the samples delayed by the buffer length and keeps
the trailing samples as the new carry-over, preserving sample count. -/
structure Delay where
  buffer : List PrcFmt

/-- Modelled from the spec: a delay of `delay_samples` samples starts with a
deterministically filled (zero) carry-over buffer of that length. -/
def Delay.from_config (delay_samples : Nat) : Delay :=
  ⟨List.replicate delay_samples 0⟩

/-- Modelled from the spec: shift the waveform through the delay line. -/
def Delay.process_waveform (d : Delay) (w : List PrcFmt) : Delay × List PrcFmt :=
  let all := d.buffer ++ w
  (⟨all.drop w.length⟩, all.take w.length)

/-- Rust's `f64::clamp(lo, hi)` on a value `x` (with `lo ≤ hi` at all call
sites in these sources). -/
def rustClamp (lo hi x : PrcFmt) : PrcFmt :=
  if x < lo then lo else if x > hi then hi else x

/-- The `CUBEFACTOR` constant of `limiter.rs`: `1 / 6.75`. -/
def CUBEFACTOR : PrcFmt := 1 / 6.75

/-- The `Limiter` struct of `limiter.rs`. -/
structure Limiter where
  name : String
  soft_clip : Bool
  clip_limit : PrcFmt
  sample_rate : Nat
  delay : Delay
  lookahead : Nat
  clip_control_history : CircularQueue
  prev_peak : PrcFmt
  alpha : PrcFmt
  beta : PrcFmt

/-- Embeds `calculate_lookahead_parameters` of `limiter.rs`: the delay line and the
`alpha`/`beta` smoothing coefficients derived from the lookahead length. -/
def calculate_lookahead_parameters (lookahead : Nat) (_sample_rate : Nat) :
    PrcFmt × PrcFmt × Delay :=
  let delay := Delay.from_config lookahead
  let overshoot : PrcFmt := 1.01
  let alpha : PrcFmt :=
    1 - (10 : PrcFmt) ^ (Real.logb 10 ((overshoot - 1) / overshoot) / ((lookahead : PrcFmt) + 1))
  let beta : PrcFmt := (1 - alpha) ^ ((lookahead : ℤ) + 1)
  (alpha, beta, delay)

/-- Embeds `Limiter::from_config` of `limiter.rs`. -/
def Limiter.from_config (name : String) (sample_rate : Nat)
    (config : LimiterParameters) : Limiter :=
  let clip_limit : PrcFmt := (10 : PrcFmt) ^ (config.clip_limit / 20)
  let lookahead := config.lookahead.getD 0
  let p := calculate_lookahead_parameters lookahead sample_rate
  { name := name
    soft_clip := config.soft_clip.getD false
    clip_limit := clip_limit
    sample_rate := sample_rate
    delay := p.2.2
    lookahead := lookahead
    clip_control_history := CircularQueue.with_capacity lookahead
    prev_peak := 0
    alpha := p.1
    beta := p.2.1 }

/-- Embeds `Limiter::apply_soft_clip` of `limiter.rs`. -/
def Limiter.apply_soft_clip (l : Limiter) (input : List PrcFmt) : List PrcFmt :=
  input.map fun val =>
    let scaled := val / l.clip_limit
    let scaled := rustClamp (-1.5) 1.5 scaled
    let scaled := scaled - CUBEFACTOR * scaled ^ (3 : ℕ)
    scaled * l.clip_limit

/-- Embeds `Limiter::apply_hard_clip` of `limiter.rs`. -/
def Limiter.apply_hard_clip (l : Limiter) (input : List PrcFmt) : List PrcFmt :=
  input.map fun val => rustClamp (-l.clip_limit) l.clip_limit val

/-- Embeds `Limiter::apply_clip` of `limiter.rs`. -/
def Limiter.apply_clip (l : Limiter) (input : List PrcFmt) : List PrcFmt :=
  if l.soft_clip then l.apply_soft_clip input else l.apply_hard_clip input

/-- The body of the closure in `Limiter::calculate_gain` of `limiter.rs`:
one detector/envelope/gain step for a single sample, returning the updated
limiter state and the gain. -/
def Limiter.gainStep (l : Limiter) (x : PrcFmt) : Limiter × PrcFmt :=
  let sample := |x|
  let sample_overshoot := (sample - l.beta * l.prev_peak) / (1 - l.beta)
  let clipping_control := max sample sample_overshoot
  let hist := l.clip_control_history.push clipping_control
  let max_sample := hist.data.foldl (fun m x => max x m) 0
  let prev_peak := l.alpha * max_sample + (1 - l.alpha) * l.prev_peak
  let gain := if prev_peak > l.clip_limit then l.clip_limit / prev_peak else 1
  ({ l with clip_control_history := hist, prev_peak := prev_peak }, gain)

/-- Embeds `Limiter::calculate_gain` of `limiter.rs`: map the per-sample step over the
waveform, threading the mutated state. -/
def Limiter.calculate_gain (l : Limiter) : List PrcFmt → Limiter × List PrcFmt
  | [] => (l, [])
  | x :: xs =>
    let s := l.gainStep x
    let r := s.1.calculate_gain xs
    (r.1, s.2 :: r.2)

/-- Embeds `Limiter::apply_limiter` of `limiter.rs`: multiply each sample by its gain
(`zip` truncates at the shorter sequence, as in Rust). -/
def Limiter.apply_limiter (gains : List PrcFmt) (waveform : List PrcFmt) : List PrcFmt :=
  List.zipWith (fun sample gain => sample * gain) waveform gains

/-- Embeds `Limiter::process_waveform` of `limiter.rs` (the `Filter` impl): with
lookahead, compute the gains, delay the signal, then apply the gains; without
lookahead, clip statically. -/
def Limiter.process_waveform (l : Limiter) (waveform : List PrcFmt) :
    Limiter × List PrcFmt :=
  if 0 < l.lookahead then
    let g := l.calculate_gain waveform
    let d := g.1.delay.process_waveform waveform
    ({ g.1 with delay := d.1 }, Limiter.apply_limiter g.2 d.2)
  else
    (l, l.apply_clip waveform)

/-- Embeds `Limiter::update_parameters` of `limiter.rs` (the `Filter` impl), at the
`Filter::Limiter` variant (the only one reaching this component; the mismatch
arm is a host-side panic outside this model). -/
def Limiter.update_parameters (l : Limiter) (config : LimiterParameters) : Limiter :=
  let clip_limit : PrcFmt := (10 : PrcFmt) ^ (config.clip_limit / 20)
  let lookahead := config.lookahead.getD 0
  let p := calculate_lookahead_parameters lookahead l.sample_rate
  { l with
    delay := p.2.2
    lookahead := lookahead
    alpha := p.1
    beta := p.2.1
    soft_clip := config.soft_clip.getD false
    clip_limit := clip_limit }

/-- The `Compressor` struct of `compressor.rs`. -/
structure Compressor where
  name : String
  channels : Nat
  monitor_channels : List Nat
  process_channels : List Nat
  attack : PrcFmt
  release : PrcFmt
  threshold : PrcFmt
  factor : PrcFmt
  makeup_gain : PrcFmt
  limiters : Option (List Limiter)
  samplerate : Nat
  scratch : List PrcFmt
  prev_loudness : PrcFmt
  prev_gain : PrcFmt
  clip_use_monitor : Bool
  monitor_use_power : Bool

/-- Embeds `Compressor::from_config` of `compressor.rs`. -/
def Compressor.from_config (name : String) (config : CompressorParameters)
    (samplerate : Nat) (chunksize : Nat) : Compressor :=
  let channels := config.channels
  let srate : PrcFmt := (samplerate : PrcFmt)
  let monitor_channels :=
    if config.monitor_channels.isEmpty then List.range channels
    else config.monitor_channels
  let process_channels :=
    if config.process_channels.isEmpty then List.range channels
    else config.process_channels
  let attack := Real.exp (-1 / srate / config.attack)
  let release := Real.exp (-1 / srate / (config.release - config.attack))
  let scratch : List PrcFmt := List.replicate chunksize 0
  let clip_use_monitor := config.clip_use_monitor.getD false
  let monitor_use_power := config.monitor_use_power.getD false
  let limiters := config.clip_limit.map fun limit =>
    List.replicate process_channels.length
      (Limiter.from_config "Limiter" samplerate
        ⟨limit, config.soft_clip, config.clip_lookahead⟩)
  { name := name
    channels := channels
    monitor_channels := monitor_channels
    process_channels := process_channels
    attack := attack
    release := release
    threshold := config.threshold
    factor := config.factor
    makeup_gain := config.makeup_gain
    limiters := limiters
    samplerate := samplerate
    scratch := scratch
    prev_loudness := 0
    prev_gain := 1
    clip_use_monitor := clip_use_monitor
    monitor_use_power := monitor_use_power }

/-- Embeds `Compressor::sum_monitor_channels` of `compressor.rs`.  Out-of-bounds
indexing (a panic in Rust) is modelled by `getD` defaults; every input
exercised below stays in bounds.  Note the power branch indexes the
monitor-channel list by its own elements (`monitor_channels[*channel]`),
exactly as the source does. -/
def Compressor.sum_monitor_channels (c : Compressor) (input : AudioChunk) : Compressor :=
  if c.monitor_channels.length = 1 then
    { c with scratch := input.waveforms.getD (c.monitor_channels.getD 0 0) [] }
  else if c.monitor_use_power then
    let len := (input.waveforms.getD (c.monitor_channels.getD 0 0) []).length
    let s := (List.range len).map fun idx =>
      Real.sqrt (c.monitor_channels.foldl (fun acc channel =>
        acc + ((input.waveforms.getD (c.monitor_channels.getD channel 0) []).getD idx 0)
          ^ (2 : ℕ)) 0)
    { c with scratch := s }
  else
    let s := c.monitor_channels.tail.foldl
      (fun acc ch => List.zipWith (fun a v => a + v) acc (input.waveforms.getD ch []))
      (input.waveforms.getD (c.monitor_channels.getD 0 0) [])
    { c with scratch := s }

/-- The loop body of `Compressor::calculate_linear_gain` of `compressor.rs`:
fold over the scratch values threading `prev_gain`, producing the final
`prev_gain` and the rewritten scratch buffer. -/
def clg_go (release threshold factor threshold_linear makeup_gain_linear : PrcFmt) :
    PrcFmt → List PrcFmt → PrcFmt × List PrcFmt
  | prev_gain, [] => (prev_gain, [])
  | prev_gain, v :: vs =>
    let gain :=
      if v > threshold_linear then
        if factor > 1000 then threshold_linear / v
        else
          let rms_db := (20 : PrcFmt) * Real.logb 10 v
          let gain_db := -(rms_db - threshold) * (factor - 1) / factor
          (10 : PrcFmt) ^ (gain_db / 20)
      else release * prev_gain + (1 - release) * 1
    let r := clg_go release threshold factor threshold_linear makeup_gain_linear gain vs
    (r.1, gain * makeup_gain_linear :: r.2)

/-- Embeds `Compressor::calculate_linear_gain` of `compressor.rs`. -/
def Compressor.calculate_linear_gain (c : Compressor) : Compressor :=
  let threshold_linear : PrcFmt := (10 : PrcFmt) ^ (c.threshold / 20)
  let makeup_gain_linear : PrcFmt := (10 : PrcFmt) ^ (c.makeup_gain / 20)
  let r := clg_go c.release c.threshold c.factor threshold_linear makeup_gain_linear
    c.prev_gain c.scratch
  { c with prev_gain := r.1, scratch := r.2 }

/-- Embeds `Compressor::update_parameters` of `compressor.rs` (the `Processor` impl),
at the `Processor::Compressor` variant (the only one; the mismatch arm is a
host-side panic outside this model). -/
def Compressor.update_parameters (c : Compressor) (config : CompressorParameters) :
    Compressor :=
  let channels := config.channels
  let srate : PrcFmt := (c.samplerate : PrcFmt)
  let monitor_channels :=
    if config.monitor_channels.isEmpty then List.range channels
    else config.monitor_channels
  let process_channels :=
    if config.process_channels.isEmpty then List.range channels
    else config.process_channels
  let attack := Real.exp (-1 / srate / config.attack)
  let release := Real.exp (-1 / srate / config.release)
  let limiters := config.clip_limit.map fun limit =>
    List.replicate process_channels.length
      (Limiter.from_config "Limiter" c.samplerate
        ⟨limit, config.soft_clip, config.clip_lookahead⟩)
  { c with
    limiters := limiters
    monitor_channels := monitor_channels
    process_channels := process_channels
    attack := attack
    release := release
    threshold := config.threshold
    factor := config.factor
    makeup_gain := config.makeup_gain
    clip_use_monitor := config.clip_use_monitor.getD false
    monitor_use_power := config.monitor_use_power.getD false }

/-- Embeds `validate_compressor` of `compressor.rs`. -/
def validate_compressor (config : CompressorParameters) : Except String Unit :=
  let channels := config.channels
  if config.attack ≤ 0 then
    Except.error "Attack value must be larger than zero."
  else if config.release ≤ 0 then
    Except.error "Release value must be larger than zero."
  else
    match config.monitor_channels.find? (fun ch => channels ≤ ch) with
    | some ch =>
      Except.error ("Invalid monitor channel: " ++ toString ch ++ ", max is: "
        ++ toString (channels - 1) ++ ".")
    | none =>
      match config.process_channels.find? (fun ch => channels ≤ ch) with
      | some ch =>
        Except.error ("Invalid channel to process: " ++ toString ch ++ ", max is: "
          ++ toString (channels - 1) ++ ".")
      | none => Except.ok ()

/-! ## Helper lemmas -/

/-- Pushing never changes the capacity of the circular queue. -/
theorem CircularQueue.push_capacity (q : CircularQueue) (x : PrcFmt) :
    (q.push x).capacity = q.capacity := by
  unfold CircularQueue.push
  split
  · rfl
  · split <;> rfl

/-- The per-sample gain step only touches the history and the peak envelope. -/
theorem Limiter.gainStep_fields (l : Limiter) (x : PrcFmt) :
    (l.gainStep x).1.clip_limit = l.clip_limit ∧
    (l.gainStep x).1.delay = l.delay ∧
    (l.gainStep x).1.lookahead = l.lookahead ∧
    (l.gainStep x).1.clip_control_history.capacity = l.clip_control_history.capacity := by
  refine ⟨rfl, rfl, rfl, ?_⟩
  simpa [Limiter.gainStep] using CircularQueue.push_capacity l.clip_control_history _

/-- The function `calculate_gain` only touches the history and the peak envelope. -/
theorem Limiter.calculate_gain_fields (l : Limiter) (w : List PrcFmt) :
    ((l.calculate_gain w).1.clip_limit = l.clip_limit) ∧
    ((l.calculate_gain w).1.delay = l.delay) ∧
    ((l.calculate_gain w).1.lookahead = l.lookahead) ∧
    ((l.calculate_gain w).1.clip_control_history.capacity
      = l.clip_control_history.capacity) := by
  induction w generalizing l with
  | nil => exact ⟨rfl, rfl, rfl, rfl⟩
  | cons x xs ih =>
    have hs := Limiter.gainStep_fields l x
    have hi := ih (l.gainStep x).1
    simp only [Limiter.calculate_gain]
    exact ⟨hi.1.trans hs.1, hi.2.1.trans hs.2.1, hi.2.2.1.trans hs.2.2.1,
      hi.2.2.2.trans hs.2.2.2⟩

/-- The gains produced by `calculate_gain` match the input in length. -/
theorem Limiter.calculate_gain_length (l : Limiter) (w : List PrcFmt) :
    (l.calculate_gain w).2.length = w.length := by
  induction w generalizing l with
  | nil => rfl
  | cons x xs ih => simpa [Limiter.calculate_gain] using ih (l.gainStep x).1

/-- Each individual gain of the lookahead limiter lies in the half-open unit
interval, for any envelope state, as long as the clip limit is positive. -/
theorem Limiter.gainStep_snd_bounds (l : Limiter) (x : PrcFmt)
    (h : 0 < l.clip_limit) : 0 < (l.gainStep x).2 ∧ (l.gainStep x).2 ≤ 1 := by
  simp only [Limiter.gainStep]
  split
  · rename_i hgt
    constructor
    · exact div_pos h (h.trans hgt)
    · exact le_of_lt ((div_lt_one (h.trans hgt)).mpr hgt)
  · exact ⟨one_pos, le_refl 1⟩

/-! ## Claim theorems -/

/-- C10: for every limiter with a positive clip limit and every input waveform,
`calculate_gain` returns one gain per input sample, and every gain lies in
the interval (0, 1]: the lookahead limiter only ever attenuates. -/
theorem calculate_gain_bounds (l : Limiter) (w : List PrcFmt)
    (h : 0 < l.clip_limit) :
    (l.calculate_gain w).2.length = w.length ∧
    ∀ g ∈ (l.calculate_gain w).2, 0 < g ∧ g ≤ 1 := by
  refine ⟨Limiter.calculate_gain_length l w, ?_⟩
  induction w generalizing l with
  | nil => intro g hg; simp [Limiter.calculate_gain] at hg
  | cons x xs ih =>
    intro g hg
    simp only [Limiter.calculate_gain, List.mem_cons] at hg
    rcases hg with hg | hg
    · subst hg; exact Limiter.gainStep_snd_bounds l x h
    · exact ih (l.gainStep x).1 ((Limiter.gainStep_fields l x).1.symm ▸ h) g hg

/-- A concrete limiter used to instantiate several witnesses: positive clip
limit, one sample of lookahead, benign coefficients. -/
def limiterW : Limiter :=
  { name := "w"
    soft_clip := false
    clip_limit := 1
    sample_rate := 1
    delay := ⟨[0]⟩
    lookahead := 1
    clip_control_history := ⟨1, []⟩
    prev_peak := 0
    alpha := 1 / 2
    beta := 1 / 2 }

/-- Witness for C10 at a concrete limiter and waveform. -/
theorem calculate_gain_bounds_witness :
    0 < limiterW.clip_limit ∧
    ((limiterW.calculate_gain [2, 0]).2.length = 2 ∧
      ∀ g ∈ (limiterW.calculate_gain [2, 0]).2, 0 < g ∧ g ≤ 1) :=
  ⟨by norm_num [limiterW], calculate_gain_bounds limiterW [2, 0] (by norm_num [limiterW])⟩

/-- C9: `apply_hard_clip` maps every sample to Rust's
`clamp(x, -clip_limit, +clip_limit)`, `apply_clip` with `soft_clip = false`
does the same, and any sample with magnitude at most the clip limit is left
unchanged by that clamp. -/
theorem apply_hard_clip_clamp (l : Limiter) (input : List PrcFmt) (x : PrcFmt) :
    l.apply_hard_clip input
      = input.map (fun v => rustClamp (-l.clip_limit) l.clip_limit v) ∧
    (l.soft_clip = false →
      l.apply_clip input
        = input.map (fun v => rustClamp (-l.clip_limit) l.clip_limit v)) ∧
    (|x| ≤ l.clip_limit → rustClamp (-l.clip_limit) l.clip_limit x = x) := by
  refine ⟨rfl, ?_, ?_⟩
  · intro hs
    simp [Limiter.apply_clip, hs, Limiter.apply_hard_clip]
  · intro hx
    rcases abs_le.mp hx with ⟨hlo, hhi⟩
    simp [rustClamp, not_lt.mpr hlo, not_lt.mpr hhi]

/-- Witness for C9 at a concrete limiter and sample. -/
theorem apply_hard_clip_clamp_witness :
    limiterW.soft_clip = false ∧
    |(1 / 2 : PrcFmt)| ≤ limiterW.clip_limit ∧
    rustClamp (-limiterW.clip_limit) limiterW.clip_limit (1 / 2) = 1 / 2 :=
  ⟨by norm_num [limiterW], by rw [abs_of_nonneg] <;> norm_num [limiterW],
    (apply_hard_clip_clamp limiterW [] (1 / 2)).2.2
      (by rw [abs_of_nonneg] <;> norm_num [limiterW])⟩

/-- A well-formed compressor configuration used by several witnesses:
one channel, attack 1 s, release 2 s. -/
def cfgW : CompressorParameters :=
  { channels := 1
    monitor_channels := []
    process_channels := []
    attack := 1
    release := 2
    threshold := 0
    factor := 1
    makeup_gain := 0
    clip_limit := none
    soft_clip := none
    clip_lookahead := none
    clip_use_monitor := none
    monitor_use_power := none }

/-- A compressor whose runtime envelope state has been driven away from the
construction-time defaults. -/
def compressorDriven : Compressor :=
  { Compressor.from_config "c" cfgW 1 1 with prev_gain := 1 / 2, prev_loudness := 1 }

/-- C2 counterexample: after `update_parameters`, the compressor's `prev_gain`
is not reset to 1 — it keeps the value it had before the update (here 1/2). -/
theorem update_parameters_reset_cex :
    (compressorDriven.update_parameters cfgW).prev_gain ≠ 1 := by
  have h : (compressorDriven.update_parameters cfgW).prev_gain = 1 / 2 := rfl
  rw [h]
  norm_num

/-- C2 amended: `update_parameters` leaves the runtime envelope state exactly
as it was — the compressor's `prev_gain` and `prev_loudness` and the limiter's
`prev_peak` and `clip_control_history` are preserved, not reset; the defaults
(gain 1, loudness 0, peak 0, empty history) are established only by
`from_config`. -/
theorem update_parameters_envelope_state (c : Compressor) (cfg : CompressorParameters)
    (l : Limiter) (lcfg : LimiterParameters) (n : String) (sr ck : Nat) :
    (c.update_parameters cfg).prev_gain = c.prev_gain ∧
    (c.update_parameters cfg).prev_loudness = c.prev_loudness ∧
    (l.update_parameters lcfg).prev_peak = l.prev_peak ∧
    (l.update_parameters lcfg).clip_control_history = l.clip_control_history ∧
    (Compressor.from_config n cfg sr ck).prev_gain = 1 ∧
    (Compressor.from_config n cfg sr ck).prev_loudness = 0 ∧
    (Limiter.from_config n sr lcfg).prev_peak = 0 ∧
    (Limiter.from_config n sr lcfg).clip_control_history.data = [] :=
  ⟨rfl, rfl, rfl, rfl, rfl, rfl, rfl, rfl⟩

/-- C3 counterexample: running `update_parameters` with the very parameters the
compressor was built from changes the release coefficient — construction uses
exp(-1/(srate·(release-attack))) but the update path uses
exp(-1/(srate·release)). -/
theorem release_coefficient_mismatch_cex :
    ((Compressor.from_config "c" cfgW 1 1).update_parameters cfgW).release
      ≠ (Compressor.from_config "c" cfgW 1 1).release := by
  have h1 : ((Compressor.from_config "c" cfgW 1 1).update_parameters cfgW).release
      = Real.exp (-1 / ((1 : Nat) : PrcFmt) / (2 : PrcFmt)) := rfl
  have h2 : (Compressor.from_config "c" cfgW 1 1).release
      = Real.exp (-1 / ((1 : Nat) : PrcFmt) / ((2 : PrcFmt) - 1)) := rfl
  rw [h1, h2]
  intro h
  have harg := Real.exp_injective h
  norm_num at harg

/-- C3 amended: `from_config` and `update_parameters` derive the attack
coefficient by the same formula exp(-1/(srate·attack)) (so the two paths agree
on it at equal sample rates), but the release coefficients differ: construction
uses release − attack as the time constant while the update path uses release
alone. -/
theorem attack_release_coefficients (n : String) (cfg cfg2 : CompressorParameters)
    (sr ck : Nat) (c : Compressor) :
    (Compressor.from_config n cfg sr ck).attack
      = Real.exp (-1 / (sr : PrcFmt) / cfg.attack) ∧
    (c.update_parameters cfg).attack
      = Real.exp (-1 / (c.samplerate : PrcFmt) / cfg.attack) ∧
    ((Compressor.from_config n cfg2 sr ck).update_parameters cfg).attack
      = (Compressor.from_config n cfg sr ck).attack ∧
    (Compressor.from_config n cfg sr ck).release
      = Real.exp (-1 / (sr : PrcFmt) / (cfg.release - cfg.attack)) ∧
    (c.update_parameters cfg).release
      = Real.exp (-1 / (c.samplerate : PrcFmt) / cfg.release) :=
  ⟨rfl, rfl, rfl, rfl, rfl⟩

/-- Limiter parameters with two samples of lookahead. -/
def lcfgA : LimiterParameters := ⟨0, none, some 2⟩

/-- Limiter parameters with three samples of lookahead. -/
def lcfgB : LimiterParameters := ⟨0, none, some 3⟩

/-- C7 counterexample: updating a limiter built with lookahead 2 to lookahead 3
leaves the history capacity at 2 while the `lookahead` field becomes 3, so the
capacity invariant is broken by `update_parameters`. -/
theorem history_capacity_update_cex :
    ¬(((Limiter.from_config "Limiter" 44100 lcfgA).update_parameters lcfgB).clip_control_history.capacity
      = ((Limiter.from_config "Limiter" 44100 lcfgA).update_parameters lcfgB).lookahead) := by
  have h1 : ((Limiter.from_config "Limiter" 44100 lcfgA).update_parameters lcfgB).clip_control_history.capacity
      = 2 := rfl
  have h2 : ((Limiter.from_config "Limiter" 44100 lcfgA).update_parameters lcfgB).lookahead
      = 3 := rfl
  rw [h1, h2]
  omega

/-- C7 amended: `from_config` establishes history capacity = lookahead, and
processing preserves the capacity; `update_parameters` also preserves the
(old) capacity while replacing the `lookahead` field, so the invariant
persists only across updates that keep the lookahead unchanged. -/
theorem history_capacity_invariant (n : String) (sr : Nat) (cfg : LimiterParameters)
    (l : Limiter) (w : List PrcFmt) (lcfg : LimiterParameters) :
    (Limiter.from_config n sr cfg).clip_control_history.capacity = cfg.lookahead.getD 0 ∧
    (Limiter.from_config n sr cfg).lookahead = cfg.lookahead.getD 0 ∧
    (l.process_waveform w).1.clip_control_history.capacity
      = l.clip_control_history.capacity ∧
    (l.update_parameters lcfg).clip_control_history.capacity
      = l.clip_control_history.capacity := by
  refine ⟨rfl, rfl, ?_, rfl⟩
  unfold Limiter.process_waveform
  split
  · simpa using (Limiter.calculate_gain_fields l w).2.2.2
  · rfl

/-- A compressor configuration with release smaller than attack, still accepted
by `validate_compressor`. -/
def cfgBadRel : CompressorParameters :=
  { cfgW with attack := 2, release := 1 }

/-- C8 counterexample: `validate_compressor` accepts attack 2 s, release 1 s
(it never compares the two), yet `from_config` then computes a release
coefficient exp(-1/(srate·(release-attack))) = exp(1) > 1, outside (0,1). -/
theorem coefficients_in_unit_interval_cex :
    validate_compressor cfgBadRel = Except.ok () ∧
    1 < (Compressor.from_config "c" cfgBadRel 1 1).release := by
  constructor
  · norm_num [validate_compressor, cfgBadRel, cfgW]
  · have h : (Compressor.from_config "c" cfgBadRel 1 1).release
        = Real.exp (-1 / ((1 : Nat) : PrcFmt) / ((1 : PrcFmt) - 2)) := rfl
    rw [h]
    have harg : (-1 / ((1 : Nat) : PrcFmt) / ((1 : PrcFmt) - 2)) = 1 := by norm_num
    rw [harg]
    exact Real.one_lt_exp_iff.mpr one_pos

/-- Characterisation: `validate_compressor` returns Ok exactly when the attack and release time
constants are positive and every configured monitor and process channel index
is in range. -/
theorem validate_compressor_ok_iff (cfg : CompressorParameters) :
    validate_compressor cfg = Except.ok () ↔
      (0 < cfg.attack ∧ 0 < cfg.release ∧
        (∀ ch ∈ cfg.monitor_channels, ch < cfg.channels) ∧
        (∀ ch ∈ cfg.process_channels, ch < cfg.channels)) := by
  unfold validate_compressor
  split_ifs with ha hr
  · constructor
    · intro h; cases h
    · intro h; exact absurd ha (not_le.mpr h.1)
  · constructor
    · intro h; cases h
    · intro h; exact absurd hr (not_le.mpr h.2.1)
  · cases hm : cfg.monitor_channels.find? (fun ch => cfg.channels ≤ ch) with
    | some ch =>
      simp only [hm]
      constructor
      · intro h; cases h
      · intro h
        have hmem := List.mem_of_find?_eq_some hm
        have hch := List.find?_some hm
        simp only [decide_eq_true_eq] at hch
        exact absurd (h.2.2.1 ch hmem) (not_lt.mpr hch)
    | none =>
      cases hp : cfg.process_channels.find? (fun ch => cfg.channels ≤ ch) with
      | some ch =>
        simp only [hm, hp]
        constructor
        · intro h; cases h
        · intro h
          have hmem := List.mem_of_find?_eq_some hp
          have hch := List.find?_some hp
          simp only [decide_eq_true_eq] at hch
          exact absurd (h.2.2.2 ch hmem) (not_lt.mpr hch)
      | none =>
        simp only [hm, hp]
        constructor
        · intro _
          refine ⟨not_le.mp ha, not_le.mp hr, ?_, ?_⟩
          · intro ch hmem
            have := List.find?_eq_none.mp hm ch hmem
            simpa [not_le] using this
          · intro ch hmem
            have := List.find?_eq_none.mp hp ch hmem
            simpa [not_le] using this
        · intro _; trivial

/-- C8 amended: for every configuration accepted by `validate_compressor`, run
at a positive sample rate and additionally satisfying release > attack (the
spec's own configuration constraint, which the validator does not enforce),
both smoothing coefficients computed by `from_config` lie strictly inside
(0,1). -/
theorem coefficients_in_unit_interval (n : String) (cfg : CompressorParameters)
    (sr ck : Nat) (hok : validate_compressor cfg = Except.ok ())
    (hsr : 0 < sr) (hra : cfg.attack < cfg.release) :
    (0 < (Compressor.from_config n cfg sr ck).attack ∧
      (Compressor.from_config n cfg sr ck).attack < 1) ∧
    (0 < (Compressor.from_config n cfg sr ck).release ∧
      (Compressor.from_config n cfg sr ck).release < 1) := by
  obtain ⟨ha, _, -, -⟩ := (validate_compressor_ok_iff cfg).mp hok
  have hsr' : (0 : PrcFmt) < (sr : PrcFmt) := by exact_mod_cast hsr
  have hneg : (-1 : PrcFmt) / (sr : PrcFmt) < 0 :=
    div_neg_of_neg_of_pos (by norm_num) hsr'
  have hatt : (Compressor.from_config n cfg sr ck).attack
      = Real.exp (-1 / (sr : PrcFmt) / cfg.attack) := rfl
  have hrel : (Compressor.from_config n cfg sr ck).release
      = Real.exp (-1 / (sr : PrcFmt) / (cfg.release - cfg.attack)) := rfl
  rw [hatt, hrel]
  refine ⟨⟨Real.exp_pos _, Real.exp_lt_one_iff.mpr ?_⟩,
    ⟨Real.exp_pos _, Real.exp_lt_one_iff.mpr ?_⟩⟩
  · exact div_neg_of_neg_of_pos hneg ha
  · exact div_neg_of_neg_of_pos hneg (sub_pos.mpr hra)

/-- Witness for C8 at the concrete configuration `cfgW` (attack 1 s,
release 2 s, sample rate 1). -/
theorem coefficients_in_unit_interval_witness :
    (0 < (Compressor.from_config "c" cfgW 1 1).attack ∧
      (Compressor.from_config "c" cfgW 1 1).attack < 1) ∧
    (0 < (Compressor.from_config "c" cfgW 1 1).release ∧
      (Compressor.from_config "c" cfgW 1 1).release < 1) :=
  coefficients_in_unit_interval "c" cfgW 1 1
    (by norm_num [validate_compressor, cfgW]) (by norm_num) (by norm_num [cfgW])

/-- C6: `validate_compressor` returns Ok exactly when attack and release are
strictly positive and every monitor and process channel index is below the
channel count; otherwise it returns a descriptive error, and for the first
out-of-range index the message cites the index and the max valid index
`channels - 1`.  Nothing is ever clamped: the result is Ok or an error. -/
theorem validate_compressor_spec (cfg : CompressorParameters) :
    (validate_compressor cfg = Except.ok () ↔
      (0 < cfg.attack ∧ 0 < cfg.release ∧
        (∀ ch ∈ cfg.monitor_channels, ch < cfg.channels) ∧
        (∀ ch ∈ cfg.process_channels, ch < cfg.channels))) ∧
    (validate_compressor cfg = Except.ok () ∨
      ∃ msg, validate_compressor cfg = Except.error msg) ∧
    (∀ ch, 0 < cfg.attack → 0 < cfg.release →
      cfg.monitor_channels.find? (fun c => cfg.channels ≤ c) = some ch →
      validate_compressor cfg = Except.error
        ("Invalid monitor channel: " ++ toString ch ++ ", max is: "
          ++ toString (cfg.channels - 1) ++ ".")) ∧
    (∀ ch, 0 < cfg.attack → 0 < cfg.release →
      cfg.monitor_channels.find? (fun c => cfg.channels ≤ c) = none →
      cfg.process_channels.find? (fun c => cfg.channels ≤ c) = some ch →
      validate_compressor cfg = Except.error
        ("Invalid channel to process: " ++ toString ch ++ ", max is: "
          ++ toString (cfg.channels - 1) ++ ".")) := by
  refine ⟨validate_compressor_ok_iff cfg, ?_, ?_, ?_⟩
  · cases h : validate_compressor cfg with
    | ok u => cases u; exact Or.inl rfl
    | error msg => exact Or.inr ⟨msg, rfl⟩
  · intro ch ha hr hm
    unfold validate_compressor
    rw [if_neg (not_le.mpr ha), if_neg (not_le.mpr hr), hm]
  · intro ch ha hr hm hp
    unfold validate_compressor
    rw [if_neg (not_le.mpr ha), if_neg (not_le.mpr hr), hm, hp]

/-- A configuration with an out-of-range monitor channel (index 2 with only
2 channels). -/
def cfgBadMon : CompressorParameters :=
  { cfgW with channels := 2, monitor_channels := [0, 2] }

/-- Witness for C6: the out-of-range monitor index 2 yields the error message
citing the max valid index. -/
theorem validate_compressor_spec_witness :
    validate_compressor cfgBadMon
      = Except.error ("Invalid monitor channel: " ++ toString (2 : Nat) ++ ", max is: "
        ++ toString (cfgBadMon.channels - 1) ++ ".") :=
  (validate_compressor_spec cfgBadMon).2.2.1 2
    (by norm_num [cfgBadMon, cfgW]) (by norm_num [cfgBadMon, cfgW]) (by rfl)

/-- The claim's per-sample compressor gain law, written from the spec: with
thresholdLin = 10^(threshold/20), the gain is thresholdLin/v in limiter mode,
10^(-(20·log10 v - threshold)·(factor-1)/factor/20) in compressor mode, and
release·prev_gain + (1-release)·1 at or below threshold. -/
def clgSpecGain (release threshold factor : PrcFmt) (prev_gain v : PrcFmt) : PrcFmt :=
  let thresholdLin : PrcFmt := (10 : PrcFmt) ^ (threshold / 20)
  if v > thresholdLin then
    if factor > 1000 then thresholdLin / v
    else (10 : PrcFmt) ^ (-((20 : PrcFmt) * Real.logb 10 v - threshold)
      * (factor - 1) / factor / 20)
  else release * prev_gain + (1 - release) * 1

/-- The claim's scratch rewrite: each envelope value is replaced by its gain
times makeupLin, each gain computed from the previous one. -/
def clgSpecList (release threshold factor makeupLin : PrcFmt) :
    PrcFmt → List PrcFmt → List PrcFmt
  | _, [] => []
  | prev, v :: vs =>
    clgSpecGain release threshold factor prev v * makeupLin ::
      clgSpecList release threshold factor makeupLin
        (clgSpecGain release threshold factor prev v) vs

/-- The claim's final `prev_gain`: the chosen gain after the last sample. -/
def clgSpecFinal (release threshold factor : PrcFmt) :
    PrcFmt → List PrcFmt → PrcFmt
  | prev, [] => prev
  | prev, v :: vs =>
    clgSpecFinal release threshold factor
      (clgSpecGain release threshold factor prev v) vs

/-- The loop body of `calculate_linear_gain` computes exactly the spec's gain
law, threading `prev_gain` through the block. -/
theorem clg_go_eq_spec (release threshold factor mg prev : PrcFmt)
    (vs : List PrcFmt) :
    clg_go release threshold factor ((10 : PrcFmt) ^ (threshold / 20)) mg prev vs
      = (clgSpecFinal release threshold factor prev vs,
         clgSpecList release threshold factor mg prev vs) := by
  induction vs generalizing prev with
  | nil => rfl
  | cons v vs ih =>
    simp only [clg_go, clgSpecList, clgSpecFinal, clgSpecGain]
    rw [ih]

/-- C4: `calculate_linear_gain` rewrites scratch to the spec's gain law —
each envelope value v becomes gain·makeupLin with gain given by the three-case
formula (brick-wall above threshold in limiter mode, the ratio formula above
threshold otherwise, release-smoothed toward unity below threshold) — and
`prev_gain` ends as the gain chosen at the last sample. -/
theorem calculate_linear_gain_spec (c : Compressor) :
    (c.calculate_linear_gain).scratch
      = clgSpecList c.release c.threshold c.factor
          ((10 : PrcFmt) ^ (c.makeup_gain / 20)) c.prev_gain c.scratch ∧
    (c.calculate_linear_gain).prev_gain
      = clgSpecFinal c.release c.threshold c.factor c.prev_gain c.scratch := by
  have h := clg_go_eq_spec c.release c.threshold c.factor
    ((10 : PrcFmt) ^ (c.makeup_gain / 20)) c.prev_gain c.scratch
  exact ⟨congrArg Prod.snd h, congrArg Prod.fst h⟩

/-- The claim's intended monitor power combination, written from the spec:
for each sample position, the root-sum-of-squares of the sample values at
exactly the selected monitor-channel indices. -/
def monitorPowerSumSpec (mc : List Nat) (waveforms : List (List PrcFmt))
    (len : Nat) : List PrcFmt :=
  (List.range len).map fun idx =>
    Real.sqrt (mc.foldl
      (fun acc ch => acc + ((waveforms.getD ch []).getD idx 0) ^ (2 : ℕ)) 0)

/-- A two-channel chunk, one sample per channel: channel 0 holds 0, channel 1
holds 1. -/
def chunkC1 : AudioChunk := ⟨[[0], [1]]⟩

/-- A compressor monitoring channels [0, 0, 1] with power summation. -/
def compressorC1 : Compressor :=
  { name := "c"
    channels := 2
    monitor_channels := [0, 0, 1]
    process_channels := [0]
    attack := 0
    release := 0
    threshold := 0
    factor := 1
    makeup_gain := 0
    limiters := none
    samplerate := 1
    scratch := [0]
    prev_loudness := 0
    prev_gain := 1
    clip_use_monitor := false
    monitor_use_power := true }

/-- C1 (code defect): with monitor channels [0, 0, 1] over the waveforms
[[0], [1]], the power branch of `sum_monitor_channels` writes 0 — it reads
`waveforms[monitor_channels[channel]]`, re-indexing the channel-index list by
its own elements, so every read lands on channel 0 — while the
root-sum-of-squares over the selected channels is 1. -/
theorem sum_monitor_channels_power_defect :
    (compressorC1.sum_monitor_channels chunkC1).scratch = [0] ∧
    monitorPowerSumSpec [0, 0, 1] chunkC1.waveforms 1 = [1] := by
  have hr1 : List.range 1 = [0] := rfl
  constructor
  · norm_num [Compressor.sum_monitor_channels, compressorC1, chunkC1, List.foldl,
      List.getD, hr1, Real.sqrt_zero]
  · norm_num [monitorPowerSumSpec, chunkC1, List.foldl, List.getD, hr1,
      Real.sqrt_one]

/-- One step of the lookahead detector, written from the spec: sample = |x|,
overshootPred = (sample - beta·prev_peak)/(1 - beta), detector pushed into the
bounded history, peak smoothed over the window max, gain = clip_limit/peak when
the peak exceeds the limit.  Returns (gain, new history, new peak). -/
def lookaheadGainSpecStep (alpha beta clip_limit prev_peak : PrcFmt)
    (hist : CircularQueue) (x : PrcFmt) : PrcFmt × CircularQueue × PrcFmt :=
  let sample := |x|
  let overshootPred := (sample - beta * prev_peak) / (1 - beta)
  let detector := max sample overshootPred
  let hist1 := hist.push detector
  let peak1 := alpha * (hist1.data.foldl (fun m y => max y m) 0)
    + (1 - alpha) * prev_peak
  (if peak1 > clip_limit then clip_limit / peak1 else 1, hist1, peak1)

/-- The gain vector of the claim's lookahead algorithm over a block, threading
the peak envelope and history. -/
def lookaheadGainSpecList (alpha beta clip_limit : PrcFmt) :
    PrcFmt → CircularQueue → List PrcFmt → List PrcFmt
  | _, _, [] => []
  | prev_peak, hist, x :: xs =>
    (lookaheadGainSpecStep alpha beta clip_limit prev_peak hist x).1 ::
      lookaheadGainSpecList alpha beta clip_limit
        (lookaheadGainSpecStep alpha beta clip_limit prev_peak hist x).2.2
        (lookaheadGainSpecStep alpha beta clip_limit prev_peak hist x).2.1 xs

/-- The gains of `calculate_gain` follow the spec's per-sample lookahead law. -/
theorem calculate_gain_eq_spec (l : Limiter) (w : List PrcFmt) :
    (l.calculate_gain w).2
      = lookaheadGainSpecList l.alpha l.beta l.clip_limit l.prev_peak
          l.clip_control_history w := by
  induction w generalizing l with
  | nil => rfl
  | cons x xs ih =>
    simp only [Limiter.calculate_gain, lookaheadGainSpecList]
    rw [ih ((l.gainStep x).1)]
    rfl

/-- The delay line emits each in-range sample delayed by exactly the buffer
length. -/
theorem delay_process_getD (d : Delay) (w : List PrcFmt) (i : Nat)
    (h1 : d.buffer.length ≤ i) (h2 : i < w.length) :
    (d.process_waveform w).2.getD i 0 = w.getD (i - d.buffer.length) 0 := by
  show ((d.buffer ++ w).take w.length).getD i 0 = w.getD (i - d.buffer.length) 0
  rw [List.getD_eq_getElem?_getD, List.getD_eq_getElem?_getD,
    List.getElem?_take_of_lt h2, List.getElem?_append_right h1]

/-- With positive lookahead, `process_waveform` is: compute the whole gain
vector first, then pass the signal through the delay line, then multiply. -/
theorem process_waveform_pos (l : Limiter) (w : List PrcFmt)
    (h : 0 < l.lookahead) :
    (l.process_waveform w).2
      = Limiter.apply_limiter (l.calculate_gain w).2
          (l.delay.process_waveform w).2 := by
  simp only [Limiter.process_waveform, h, if_true]
  rw [(Limiter.calculate_gain_fields l w).2.1]

/-- C5: for a limiter with positive lookahead (and the delay line holding
exactly `lookahead` samples of carry-over, as construction provides), the
output block is the delayed signal multiplied by the gain vector computed
first over the whole block; the gains follow the spec's per-sample law
(|x|, overshoot prediction, bounded-history max filter, smoothed peak,
clip_limit/peak), and the delayed signal is the input shifted by exactly
`lookahead` samples. -/
theorem process_waveform_lookahead_spec (l : Limiter) (w : List PrcFmt)
    (h1 : 0 < l.lookahead) (h2 : l.delay.buffer.length = l.lookahead) :
    (l.process_waveform w).2
      = Limiter.apply_limiter (l.calculate_gain w).2
          (l.delay.process_waveform w).2 ∧
    (l.calculate_gain w).2
      = lookaheadGainSpecList l.alpha l.beta l.clip_limit l.prev_peak
          l.clip_control_history w ∧
    ∀ i, l.lookahead ≤ i → i < w.length →
      (l.delay.process_waveform w).2.getD i 0 = w.getD (i - l.lookahead) 0 := by
  refine ⟨process_waveform_pos l w h1, calculate_gain_eq_spec l w, ?_⟩
  intro i hi hiw
  have h := delay_process_getD l.delay w i (by rw [h2]; exact hi) hiw
  rwa [h2] at h

/-- Witness for C5 at the concrete limiter `limiterW` and a two-sample block. -/
theorem process_waveform_lookahead_spec_witness :
    0 < limiterW.lookahead ∧
    (limiterW.process_waveform [1, 2]).2
      = Limiter.apply_limiter (limiterW.calculate_gain [1, 2]).2
          (limiterW.delay.process_waveform [1, 2]).2 :=
  ⟨Nat.one_pos,
    (process_waveform_lookahead_spec limiterW [1, 2] Nat.one_pos rfl).1⟩

end CamillaDSP

end
